import Mathlib

/-!
Shallow embedding of the hierarchical election-aggregation tree of
`mglunafh/election-analysis` (`src/ik_info.py`, plus the copy of the same
class kept inside `src/process_tik.py`), together with theorems settling
the frozen claims about its specification.

Modelling conventions:
* A Python `IkInfo` object is the inductive value `IkInfo.mk name
  total_voters given_ballots found_ballots spoiled_ballots yes_votes
  no_votes dependent_iks`.  Python integers are `Int`.
* The `dependent_iks` `OrderedDict` is `Option (List IkInfo)`: `none` is
  Python `None`, `some l` is a dict whose insertion-ordered values are `l`.
  In every code path of the repository a child is stored under the key
  `child.name`, so the dict key of an entry is recoverable as the stored
  node's `name` and need not be modelled separately.
* Python truthiness of `dependent_iks` (`None` and `{}` are falsy) is
  `depsTruthy`.
* Methods that can raise are embedded as `Except`-valued functions; the
  structured error values carry exactly the data interpolated into the
  corresponding Python exception message.
* Python `float` arithmetic in the percentage getters is modelled as exact
  rational arithmetic (`Rat`); `x / 0` raising `ZeroDivisionError` is the
  `.error .zeroDivision` branch.
-/

namespace ElectionAnalysis

/-- Keys of the `field_description` dict in `src/ik_info.py`: the six
counters of an `IkInfo` node. -/
inductive Field : Type where
  | total_voters
  | given_ballots
  | found_ballots
  | spoiled_ballots
  | yes_votes
  | no_votes
deriving DecidableEq

/-- Entries of the `field_description` dict of `src/ik_info.py` (and the
identical dict of `src/process_tik.py`), in insertion order. -/
def field_description : List (Field × String) :=
  [(Field.total_voters, "Amount of potential voters"),
   (Field.given_ballots, "Amount of given ballot papers"),
   (Field.found_ballots, "Amount of ballots in the ballot boxes"),
   (Field.spoiled_ballots, "Amount of spoiled ballots"),
   (Field.yes_votes, "YES"),
   (Field.no_votes, "NO")]

/-- Entries of the `line_as_ui_info_field` dict of `src/process_tik.py`,
in insertion order (row code of the CSV line to counter field). -/
def line_as_ui_info_field : List (String × Field) :=
  [("1", Field.total_voters),
   ("2", Field.given_ballots),
   ("3", Field.found_ballots),
   ("4", Field.spoiled_ballots),
   ("5", Field.yes_votes),
   ("6", Field.no_votes)]

/-- Iteration order of `field_description.keys()` used by
`IkInfo.__validate_dependent_iks_numbers` in `src/ik_info.py`. -/
def ikFieldOrder : List Field := field_description.map Prod.fst

/-- Iteration order of `line_as_ui_info_field.values()` used by the
validation loop in `src/process_tik.py`. -/
def tikFieldOrder : List Field := line_as_ui_info_field.map Prod.snd

/-- The `IkInfo` object: name, the six integer counters in declaration
order, and the optional ordered mapping of dependent commissions. -/
inductive IkInfo : Type where
  | mk (name : String)
       (total_voters given_ballots found_ballots : Int)
       (spoiled_ballots yes_votes no_votes : Int)
       (dependent_iks : Option (List IkInfo))

def IkInfo.name : IkInfo → String
  | .mk n _ _ _ _ _ _ _ => n

def IkInfo.total_voters : IkInfo → Int
  | .mk _ tv _ _ _ _ _ _ => tv

def IkInfo.given_ballots : IkInfo → Int
  | .mk _ _ gb _ _ _ _ _ => gb

def IkInfo.found_ballots : IkInfo → Int
  | .mk _ _ _ fb _ _ _ _ => fb

def IkInfo.spoiled_ballots : IkInfo → Int
  | .mk _ _ _ _ sb _ _ _ => sb

def IkInfo.yes_votes : IkInfo → Int
  | .mk _ _ _ _ _ yv _ _ => yv

def IkInfo.no_votes : IkInfo → Int
  | .mk _ _ _ _ _ _ nv _ => nv

def IkInfo.dependent_iks : IkInfo → Option (List IkInfo)
  | .mk _ _ _ _ _ _ _ deps => deps

/-- Python `getattr(ik, field)` for the six counter fields. -/
def IkInfo.getField (t : IkInfo) : Field → Int
  | .total_voters => t.total_voters
  | .given_ballots => t.given_ballots
  | .found_ballots => t.found_ballots
  | .spoiled_ballots => t.spoiled_ballots
  | .yes_votes => t.yes_votes
  | .no_votes => t.no_votes

/-- Values of the `dependent_iks` mapping in insertion order; `[]` both
for Python `None` and for an empty dict. -/
def childList (t : IkInfo) : List IkInfo :=
  match t with
  | .mk _ _ _ _ _ _ _ none => []
  | .mk _ _ _ _ _ _ _ (some l) => l

/-- Python truthiness of `self.dependent_iks`: `None` and the empty
`OrderedDict` are falsy, a non-empty dict is truthy. -/
def depsTruthy : Option (List IkInfo) → Bool
  | none => false
  | some [] => false
  | some (_ :: _) => true

/-- The `IkInfo.__init__(self, name, has_dependent=False)` constructor of
`src/ik_info.py`: counters start at the class-level default `0`,
`dependent_iks` becomes an empty ordered dict when `has_dependent`. -/
def IkInfo.new (name : String) (has_dependent : Bool) : IkInfo :=
  .mk name 0 0 0 0 0 0 (if has_dependent then some [] else none)

theorem childList_sizeOf : ∀ t : IkInfo, sizeOf (childList t) < sizeOf t
  | .mk _ _ _ _ _ _ _ none => by simp [childList]
  | .mk _ _ _ _ _ _ _ (some l) => by simp [childList]; omega

/-- Induction over an `IkInfo` tree: to prove `P` everywhere it is enough
to prove it at a node assuming it for all direct children. -/
theorem IkInfo.inductChildren (P : IkInfo → Prop)
    (step : ∀ t : IkInfo, (∀ c ∈ childList t, P c) → P t) :
    ∀ t, P t := by
  have key : ∀ n : Nat, ∀ t : IkInfo, sizeOf t < n → P t := by
    intro n
    induction n with
    | zero => intro t ht; omega
    | succ k ih =>
      intro t ht
      apply step
      intro c hc
      apply ih
      have h1 : sizeOf c < sizeOf (childList t) := List.sizeOf_lt_of_mem hc
      have h2 := childList_sizeOf t
      omega
  intro t
  exact key (sizeOf t + 1) t (by omega)

/-- Python runtime errors raised by the embedded methods. -/
inductive PyError : Type where
  | zeroDivision
  | typeErrorNoneNotIterable
  | attributeErrorOnStr
deriving DecidableEq

/-- The method `IkInfo.get_turnout_percent`:
`100.0 * self.given_ballots / self.total_voters`, raising
`ZeroDivisionError` when `total_voters` is zero. -/
def IkInfo.get_turnout_percent (t : IkInfo) : Except PyError Rat :=
  if t.total_voters = 0 then .error .zeroDivision
  else .ok (100 * (t.given_ballots : Rat) / (t.total_voters : Rat))

/-- The method `IkInfo.get_yes_percent`:
`100.0 * self.yes_votes / self.found_ballots`. -/
def IkInfo.get_yes_percent (t : IkInfo) : Except PyError Rat :=
  if t.found_ballots = 0 then .error .zeroDivision
  else .ok (100 * (t.yes_votes : Rat) / (t.found_ballots : Rat))

/-- The method `IkInfo.get_no_percent`:
`100.0 * self.no_votes / self.found_ballots`. -/
def IkInfo.get_no_percent (t : IkInfo) : Except PyError Rat :=
  if t.found_ballots = 0 then .error .zeroDivision
  else .ok (100 * (t.no_votes : Rat) / (t.found_ballots : Rat))

/-- The method `IkInfo.get_spoiled_percent`:
`100.0 * self.spoiled_ballots / self.found_ballots`. -/
def IkInfo.get_spoiled_percent (t : IkInfo) : Except PyError Rat :=
  if t.found_ballots = 0 then .error .zeroDivision
  else .ok (100 * (t.spoiled_ballots : Rat) / (t.found_ballots : Rat))

/-- The method `IkInfo.get_number_of_iks`:
`0 if not self.dependent_iks else len(self.dependent_iks)`. -/
def IkInfo.get_number_of_iks (t : IkInfo) : Nat :=
  if depsTruthy t.dependent_iks then (childList t).length else 0

mutual

/-- The generator method `IkInfo.get_iks(self, recursive=True)`, embedded
as the list of nodes it yields: a node with falsy `dependent_iks` yields
itself; otherwise it yields from each child recursively (when
`recursive`) or yields the direct children. -/
def IkInfo.get_iks (t : IkInfo) (recursive : Bool) : List IkInfo :=
  if depsTruthy t.dependent_iks then
    if recursive then iksOfValues (childList t) else childList t
  else [t]
  termination_by sizeOf t
  decreasing_by exact childList_sizeOf t

/-- The `for ik in self.dependent_iks.values(): yield from ik.get_iks()`
loop of `IkInfo.get_iks` (the recursive call uses the default
`recursive=True`). -/
def iksOfValues : List IkInfo → List IkInfo
  | [] => []
  | c :: cs => c.get_iks true ++ iksOfValues cs
  termination_by l => sizeOf l
  decreasing_by all_goals (simp; try omega)

end

/-- The method `IkInfo.get_ik_by_name(self, ik_name)`, embedded with the
runtime faults of the source intact: on a node whose `dependent_iks` is
`None` the membership test `ik_name in None` raises `TypeError`; on a
node with a non-empty dict whose direct lookup misses, the final loop
`for ik in self.dependent_iks` iterates over the string keys and calls
`ik.get_ik_by_name(...)` on a `str`, raising `AttributeError`. -/
def IkInfo.get_ik_by_name (t : IkInfo) (ik_name : String) :
    Except PyError (Option IkInfo) :=
  if t.name = ik_name then .ok (some t)
  else
    match t.dependent_iks with
    | none => .error .typeErrorNoneNotIterable
    | some l =>
      match l.find? (fun c => c.name = ik_name) with
      | some c => .ok (some c)
      | none =>
        match l with
        | [] => .ok none
        | _ :: _ => .error .attributeErrorOnStr

/-- Assignment `d[child.name] = child` on an insertion-ordered dict whose
stored values are listed in key-insertion order: an existing key keeps
its position and gets the new value, a fresh key is appended. -/
def odSet : List IkInfo → IkInfo → List IkInfo
  | [], c => [c]
  | x :: xs, c => if x.name = c.name then c :: xs else x :: odSet xs c

/-- The method `IkInfo.add_ik_info(self, ik_info)`: materialise the dict
when `dependent_iks` is falsy, store the child under its name, and add
each of the six counters of the child onto this node's counters. -/
def IkInfo.add_ik_info (t c : IkInfo) : IkInfo :=
  match t with
  | .mk n tv gb fb sb yv nv deps =>
    .mk n (tv + c.total_voters) (gb + c.given_ballots)
      (fb + c.found_ballots) (sb + c.spoiled_ballots)
      (yv + c.yes_votes) (nv + c.no_votes)
      (some (odSet ((if depsTruthy deps then deps else some []).getD []) c))

/-- Errors raised (as `AssertionError`) by `IkInfo.validate` and its
private helpers; each constructor carries exactly the values interpolated
into the corresponding Python message. -/
inductive ValidationError : Type where
  | foundMismatch (ik_name : String) (yes no spoiled found : Int)
  | givenLtFound (ik_name : String) (given found : Int)
  | totalLtGiven (ik_name : String) (voters given : Int)
  | sumMismatch (ik_name : String) (field : Field) (total total_calc : Int)
deriving DecidableEq

/-- The private method `IkInfo.__validate_found_ballots`: raise when
`self.found_ballots != self.yes_votes + self.no_votes +
self.spoiled_ballots`. -/
def IkInfo.validate_found_ballots (t : IkInfo) : Except ValidationError Unit :=
  if t.found_ballots ≠ t.yes_votes + t.no_votes + t.spoiled_ballots then
    .error (.foundMismatch t.name t.yes_votes t.no_votes
      t.spoiled_ballots t.found_ballots)
  else .ok ()

/-- The private method `IkInfo.__validate_given_ballots`: raise when
`self.given_ballots < self.found_ballots`. -/
def IkInfo.validate_given_ballots (t : IkInfo) : Except ValidationError Unit :=
  if t.given_ballots < t.found_ballots then
    .error (.givenLtFound t.name t.given_ballots t.found_ballots)
  else .ok ()

/-- The private method `IkInfo.__validate_total_voters`: raise when
`self.total_voters < self.given_ballots`. -/
def IkInfo.validate_total_voters (t : IkInfo) : Except ValidationError Unit :=
  if t.total_voters < t.given_ballots then
    .error (.totalLtGiven t.name t.total_voters t.given_ballots)
  else .ok ()

/-- The `reduce(lambda acc, ik: acc + getattr(ik, field), values, 0)` sum
of one counter over a list of nodes. -/
def sumField (f : Field) (l : List IkInfo) : Int :=
  l.foldl (fun acc ik => acc + ik.getField f) 0

/-- The `for field in ...` loop of `__validate_dependent_iks_numbers`:
for each counter field in the given order, compare this node's value with
the recomputed sum over the direct children and raise on the first
mismatch. -/
def checkSums (t : IkInfo) : List Field → Except ValidationError Unit
  | [] => .ok ()
  | f :: fs =>
    if t.getField f ≠ sumField f (childList t) then
      .error (.sumMismatch t.name f (t.getField f)
        (sumField f (childList t)))
    else checkSums t fs

mutual

/-- The method `IkInfo.validate`: run the three own-node checks in source
order, then `__validate_dependent_iks_numbers`, which returns at once on
a falsy `dependent_iks` and otherwise first validates every child and
then compares the six counter sums in `field_description` key order. -/
def IkInfo.validate (t : IkInfo) : Except ValidationError Unit :=
  match t.validate_found_ballots with
  | .error e => .error e
  | .ok _ =>
    match t.validate_given_ballots with
    | .error e => .error e
    | .ok _ =>
      match t.validate_total_voters with
      | .error e => .error e
      | .ok _ =>
        if depsTruthy t.dependent_iks then
          match validateValues (childList t) with
          | .error e => .error e
          | .ok _ => checkSums t ikFieldOrder
        else .ok ()
  termination_by sizeOf t
  decreasing_by exact childList_sizeOf t

/-- The `for ik in self.dependent_iks.values(): ik.validate()` loop of
`__validate_dependent_iks_numbers`. -/
def validateValues : List IkInfo → Except ValidationError Unit
  | [] => .ok ()
  | c :: cs =>
    match c.validate with
    | .error e => .error e
    | .ok _ => validateValues cs
  termination_by l => sizeOf l
  decreasing_by all_goals (simp; try omega)

end

/-- Invariant 1 of the specification: `found_ballots == yes_votes +
no_votes + spoiled_ballots`. -/
def inv1 (t : IkInfo) : Prop :=
  t.found_ballots = t.yes_votes + t.no_votes + t.spoiled_ballots

/-- Invariant 2 of the specification: `given_ballots >= found_ballots`. -/
def inv2 (t : IkInfo) : Prop := t.found_ballots ≤ t.given_ballots

/-- Invariant 3 of the specification: `total_voters >= given_ballots`. -/
def inv3 (t : IkInfo) : Prop := t.given_ballots ≤ t.total_voters

/-- Invariant 4 of the specification at one node: each of the six
counters equals its sum over the direct children. -/
def childSumsOk (t : IkInfo) : Prop :=
  ∀ f : Field, t.getField f = sumField f (childList t)

mutual

/-- A tree is valid when invariants 1-3 hold at the node and, when the
node has children, every child subtree is valid and the six counters
match the child sums (invariant 4). -/
def Valid (t : IkInfo) : Prop :=
  inv1 t ∧ inv2 t ∧ inv3 t ∧
    (depsTruthy t.dependent_iks = true → ValidList (childList t) ∧ childSumsOk t)
  termination_by sizeOf t
  decreasing_by exact childList_sizeOf t

/-- Validity of every tree in a list. -/
def ValidList : List IkInfo → Prop
  | [] => True
  | c :: cs => Valid c ∧ ValidList cs
  termination_by l => sizeOf l
  decreasing_by all_goals (simp; try omega)

end

/-- Replacement of the `dependent_iks` values (used to thread the
children's post-call state in the state-passing embedding of
`validate`). -/
def IkInfo.withChildren : IkInfo → List IkInfo → IkInfo
  | .mk n tv gb fb sb yv nv _, l => .mk n tv gb fb sb yv nv (some l)

mutual

/-- State-passing embedding of `IkInfo.validate`: the method returns no
value, so its observable outcome is the raised-or-not status together
with the state of the receiver after the call.  Every statement of the
source method and of its private helpers only reads attributes, so each
step passes the receiver through; the children's post-call states are
threaded back into the node. -/
def IkInfo.validateS (t : IkInfo) : Except ValidationError Unit × IkInfo :=
  match t.validate_found_ballots with
  | .error e => (.error e, t)
  | .ok _ =>
    match t.validate_given_ballots with
    | .error e => (.error e, t)
    | .ok _ =>
      match t.validate_total_voters with
      | .error e => (.error e, t)
      | .ok _ =>
        if depsTruthy t.dependent_iks then
          match validateValuesS (childList t) with
          | (.error e, l) => (.error e, t.withChildren l)
          | (.ok _, l) =>
            (checkSums (t.withChildren l) ikFieldOrder, t.withChildren l)
        else (.ok (), t)
  termination_by sizeOf t
  decreasing_by exact childList_sizeOf t

/-- State-passing form of the child-validation loop: on the first raise
the loop aborts, the remaining children untouched. -/
def validateValuesS :
    List IkInfo → Except ValidationError Unit × List IkInfo
  | [] => (.ok (), [])
  | c :: cs =>
    match c.validateS with
    | (.error e, c1) => (.error e, c1 :: cs)
    | (.ok _, c1) =>
      match validateValuesS cs with
      | (r, cs1) => (r, c1 :: cs1)
  termination_by l => sizeOf l
  decreasing_by all_goals (simp; try omega)

end

namespace Tik

/-- The `IkInfo.__init__(self, name)` constructor of the class copy in
`src/process_tik.py`: only the name is set, the class-level defaults
leave the counters at `0` and `dependent_iks` at `None`. -/
def new (name : String) : IkInfo := .mk name 0 0 0 0 0 0 none

/-- The method `IkInfo.get_turnout_percent` of `src/process_tik.py`. -/
def get_turnout_percent (t : IkInfo) : Except PyError Rat :=
  if t.total_voters = 0 then .error .zeroDivision
  else .ok (100 * (t.given_ballots : Rat) / (t.total_voters : Rat))

/-- The method `IkInfo.get_yes_percent` of `src/process_tik.py`. -/
def get_yes_percent (t : IkInfo) : Except PyError Rat :=
  if t.found_ballots = 0 then .error .zeroDivision
  else .ok (100 * (t.yes_votes : Rat) / (t.found_ballots : Rat))

/-- The method `IkInfo.get_no_percent` of `src/process_tik.py`. -/
def get_no_percent (t : IkInfo) : Except PyError Rat :=
  if t.found_ballots = 0 then .error .zeroDivision
  else .ok (100 * (t.no_votes : Rat) / (t.found_ballots : Rat))

/-- The method `IkInfo.get_spoiled_percent` of `src/process_tik.py`. -/
def get_spoiled_percent (t : IkInfo) : Except PyError Rat :=
  if t.found_ballots = 0 then .error .zeroDivision
  else .ok (100 * (t.spoiled_ballots : Rat) / (t.found_ballots : Rat))

/-- The method `IkInfo.get_number_of_iks` of `src/process_tik.py`. -/
def get_number_of_iks (t : IkInfo) : Nat :=
  if depsTruthy t.dependent_iks then (childList t).length else 0

mutual

/-- The method `IkInfo.get_iks(self, recursive=True)` of
`src/process_tik.py`. -/
def get_iks (t : IkInfo) (recursive : Bool) : List IkInfo :=
  if depsTruthy t.dependent_iks then
    if recursive then iksOfValuesT (childList t) else childList t
  else [t]
  termination_by sizeOf t
  decreasing_by exact childList_sizeOf t

/-- The `yield from` loop of `get_iks` in `src/process_tik.py`. -/
def iksOfValuesT : List IkInfo → List IkInfo
  | [] => []
  | c :: cs => get_iks c true ++ iksOfValuesT cs
  termination_by l => sizeOf l
  decreasing_by all_goals (simp; try omega)

end

/-- The method `IkInfo.add_ik_info` of `src/process_tik.py` (identical
statement list to the one in `src/ik_info.py`). -/
def add_ik_info (t c : IkInfo) : IkInfo :=
  match t with
  | .mk n tv gb fb sb yv nv deps =>
    .mk n (tv + c.total_voters) (gb + c.given_ballots)
      (fb + c.found_ballots) (sb + c.spoiled_ballots)
      (yv + c.yes_votes) (nv + c.no_votes)
      (some (odSet ((if depsTruthy deps then deps else some []).getD []) c))

mutual

/-- The method `IkInfo.validate(self, data_file=None)` of
`src/process_tik.py`: `data_file` is accepted and ignored; the child-sum
loop iterates over `line_as_ui_info_field.values()` instead of
`field_description.keys()`. -/
def validate (t : IkInfo) (data_file : Option String) :
    Except ValidationError Unit :=
  match t.validate_found_ballots with
  | .error e => .error e
  | .ok _ =>
    match t.validate_given_ballots with
    | .error e => .error e
    | .ok _ =>
      match t.validate_total_voters with
      | .error e => .error e
      | .ok _ =>
        if depsTruthy t.dependent_iks then
          match validateValuesT (childList t) with
          | .error e => .error e
          | .ok _ => checkSums t tikFieldOrder
        else .ok ()
  termination_by sizeOf t
  decreasing_by exact childList_sizeOf t

/-- The `for ik in self.dependent_iks.values(): ik.validate()` loop of
`__validate_dependent_iks_numbers` in `src/process_tik.py` (the
recursive call passes no `data_file`). -/
def validateValuesT : List IkInfo → Except ValidationError Unit
  | [] => .ok ()
  | c :: cs =>
    match validate c none with
    | .error e => .error e
    | .ok _ => validateValuesT cs
  termination_by l => sizeOf l
  decreasing_by all_goals (simp; try omega)

end

end Tik

mutual

/-- All nodes of a tree: the node itself followed by the nodes of every
child subtree, in insertion order. -/
def nodes (t : IkInfo) : List IkInfo :=
  t :: nodesList (childList t)
  termination_by sizeOf t
  decreasing_by exact childList_sizeOf t

/-- Concatenated node lists of a list of trees. -/
def nodesList : List IkInfo → List IkInfo
  | [] => []
  | c :: cs => nodes c ++ nodesList cs
  termination_by l => sizeOf l
  decreasing_by all_goals (simp; try omega)

end

theorem validate_found_ballots_ok (t : IkInfo) :
    t.validate_found_ballots = Except.ok () ↔ inv1 t := by
  unfold IkInfo.validate_found_ballots inv1
  split <;> simp_all

theorem validate_given_ballots_ok (t : IkInfo) :
    t.validate_given_ballots = Except.ok () ↔ inv2 t := by
  unfold IkInfo.validate_given_ballots inv2
  split <;> simp_all

theorem validate_total_voters_ok (t : IkInfo) :
    t.validate_total_voters = Except.ok () ↔ inv3 t := by
  unfold IkInfo.validate_total_voters inv3
  split <;> simp_all

theorem checkSums_ok_iff (t : IkInfo) (fs : List Field) :
    checkSums t fs = Except.ok () ↔
      ∀ f ∈ fs, t.getField f = sumField f (childList t) := by
  induction fs with
  | nil => simp [checkSums]
  | cons f fs ih =>
    simp only [checkSums]
    split
    · next h =>
      simp only [List.forall_mem_cons]
      constructor
      · intro hco; cases hco
      · intro hco; exact absurd hco.1 h
    · next h =>
      rw [ih]
      simp only [List.forall_mem_cons]
      push_neg at h
      simp [h]

theorem mem_ikFieldOrder (f : Field) : f ∈ ikFieldOrder := by
  cases f <;> simp [ikFieldOrder, field_description]

theorem checkSums_ik_ok_iff (t : IkInfo) :
    checkSums t ikFieldOrder = Except.ok () ↔ childSumsOk t := by
  rw [checkSums_ok_iff]
  unfold childSumsOk
  exact ⟨fun h f => h f (mem_ikFieldOrder f), fun h f _ => h f⟩

theorem validateValues_ok_iff (l : List IkInfo)
    (ih : ∀ c ∈ l, (IkInfo.validate c = Except.ok () ↔ Valid c)) :
    validateValues l = Except.ok () ↔ ValidList l := by
  induction l with
  | nil => simp [validateValues, ValidList]
  | cons c cs ihl =>
    have hc := ih c (List.mem_cons_self c cs)
    have hcs := ihl (fun x hx => ih x (List.mem_cons_of_mem c hx))
    simp only [validateValues, ValidList]
    cases hval : IkInfo.validate c with
    | error e =>
      constructor
      · intro hco; cases hco
      · intro hco
        have := hc.mpr hco.1
        rw [hval] at this
        cases this
    | ok u =>
      cases u
      rw [hcs]
      constructor
      · intro h; exact ⟨hc.mp hval, h⟩
      · intro h; exact h.2

theorem validate_ok_iff_Valid :
    ∀ t : IkInfo, (IkInfo.validate t = Except.ok () ↔ Valid t) := by
  apply IkInfo.inductChildren
  intro t ih
  have hf := validate_found_ballots_ok t
  have hg := validate_given_ballots_ok t
  have hv := validate_total_voters_ok t
  rw [IkInfo.validate, Valid]
  cases h1 : t.validate_found_ballots with
  | error e =>
    have hn1 : ¬ inv1 t := fun hi => by
      have := hf.mpr hi; rw [h1] at this; cases this
    simp [hn1]
  | ok u =>
    cases u
    have hi1 : inv1 t := hf.mp h1
    cases h2 : t.validate_given_ballots with
    | error e =>
      have hn2 : ¬ inv2 t := fun hi => by
        have := hg.mpr hi; rw [h2] at this; cases this
      simp [hi1, hn2]
    | ok u =>
      cases u
      have hi2 : inv2 t := hg.mp h2
      cases h3 : t.validate_total_voters with
      | error e =>
        have hn3 : ¬ inv3 t := fun hi => by
          have := hv.mpr hi; rw [h3] at this; cases this
        simp [hi1, hi2, hn3]
      | ok u =>
        cases u
        have hi3 : inv3 t := hv.mp h3
        by_cases hd : depsTruthy t.dependent_iks = true
        · simp only [hd, if_true, hi1, hi2, hi3, true_and]
          cases hvv : validateValues (childList t) with
          | error e =>
            have hnv : ¬ ValidList (childList t) := fun hval => by
              have := (validateValues_ok_iff (childList t) ih).mpr hval
              rw [hvv] at this; cases this
            constructor
            · intro hco; cases hco
            · intro hco; exact absurd (hco trivial).1 hnv
          | ok u =>
            cases u
            have hvl : ValidList (childList t) :=
              (validateValues_ok_iff (childList t) ih).mp hvv
            rw [checkSums_ik_ok_iff]
            constructor
            · intro h; exact fun _ => ⟨hvl, h⟩
            · intro h; exact (h trivial).2
        · simp [hd, hi1, hi2, hi3]

/-- A raised validation error is truthful about the tree it was raised
from: a node with the reported name exists in the tree, its counters are
the reported values, and those values do violate the reported check. -/
def errWitnessed (t : IkInfo) : ValidationError → Prop
  | .foundMismatch nm y no sp fd =>
      ∃ u ∈ nodes t, IkInfo.name u = nm ∧ u.yes_votes = y ∧
        u.no_votes = no ∧ u.spoiled_ballots = sp ∧ u.found_ballots = fd ∧
        fd ≠ y + no + sp
  | .givenLtFound nm g f =>
      ∃ u ∈ nodes t, IkInfo.name u = nm ∧ u.given_ballots = g ∧
        u.found_ballots = f ∧ g < f
  | .totalLtGiven nm v g =>
      ∃ u ∈ nodes t, IkInfo.name u = nm ∧ u.total_voters = v ∧
        u.given_ballots = g ∧ v < g
  | .sumMismatch nm f tot tcalc =>
      ∃ u ∈ nodes t, IkInfo.name u = nm ∧ u.getField f = tot ∧
        sumField f (childList u) = tcalc ∧ tot ≠ tcalc

theorem self_mem_nodes (t : IkInfo) : t ∈ nodes t := by
  rw [nodes]; exact List.mem_cons_self t _

theorem mem_nodesList_of_mem {l : List IkInfo} {c : IkInfo} (hc : c ∈ l) :
    ∀ u ∈ nodes c, u ∈ nodesList l := by
  intro u hu
  induction l with
  | nil => cases hc
  | cons x xs ih =>
    rw [nodesList]
    rcases List.mem_cons.mp hc with h | h
    · subst h; exact List.mem_append_left _ hu
    · exact List.mem_append_right _ (ih h)

theorem mem_nodes_of_child {c t : IkInfo} (hc : c ∈ childList t) :
    ∀ u ∈ nodes c, u ∈ nodes t := by
  intro u hu
  rw [nodes]
  exact List.mem_cons_of_mem _ (mem_nodesList_of_mem hc u hu)

theorem errWitnessed_mono {c t : IkInfo} (e : ValidationError)
    (hsub : ∀ u ∈ nodes c, u ∈ nodes t) :
    errWitnessed c e → errWitnessed t e := by
  cases e <;>
    (intro h
     obtain ⟨u, hu, hrest⟩ := h
     exact ⟨u, hsub u hu, hrest⟩)

theorem validateValues_error {l : List IkInfo} {e : ValidationError}
    (h : validateValues l = Except.error e) :
    ∃ c ∈ l, IkInfo.validate c = Except.error e := by
  induction l with
  | nil => rw [validateValues] at h; cases h
  | cons c cs ih =>
    rw [validateValues] at h
    cases hval : IkInfo.validate c with
    | error e1 =>
      rw [hval] at h
      cases h
      exact ⟨c, List.mem_cons_self c cs, hval⟩
    | ok u =>
      cases u
      rw [hval] at h
      obtain ⟨x, hx, hxe⟩ := ih h
      exact ⟨x, List.mem_cons_of_mem c hx, hxe⟩

theorem checkSums_error {t : IkInfo} {fs : List Field}
    {e : ValidationError} (h : checkSums t fs = Except.error e) :
    ∃ f ∈ fs, t.getField f ≠ sumField f (childList t) ∧
      e = ValidationError.sumMismatch t.name f (t.getField f)
        (sumField f (childList t)) := by
  induction fs with
  | nil => rw [checkSums] at h; cases h
  | cons f fs ih =>
    rw [checkSums] at h
    split at h
    · next hne =>
      cases h
      exact ⟨f, List.mem_cons_self f fs, hne, rfl⟩
    · next heq =>
      obtain ⟨g, hg, hrest⟩ := ih h
      exact ⟨g, List.mem_cons_of_mem f hg, hrest⟩

theorem validate_error_witnessed :
    ∀ t : IkInfo, ∀ e : ValidationError,
      IkInfo.validate t = Except.error e → errWitnessed t e := by
  have main := IkInfo.inductChildren
    (fun t => ∀ e : ValidationError,
      IkInfo.validate t = Except.error e → errWitnessed t e)
  apply main
  intro t ih e hval
  rw [IkInfo.validate] at hval
  cases h1 : t.validate_found_ballots with
  | error e1 =>
    rw [h1] at hval
    cases hval
    unfold IkInfo.validate_found_ballots at h1
    split at h1
    · next hne =>
      cases h1
      exact ⟨t, self_mem_nodes t, rfl, rfl, rfl, rfl, rfl, hne⟩
    · cases h1
  | ok u =>
    cases u
    rw [h1] at hval
    cases h2 : t.validate_given_ballots with
    | error e2 =>
      rw [h2] at hval
      cases hval
      unfold IkInfo.validate_given_ballots at h2
      split at h2
      · next hlt =>
        cases h2
        exact ⟨t, self_mem_nodes t, rfl, rfl, rfl, hlt⟩
      · cases h2
    | ok u =>
      cases u
      rw [h2] at hval
      cases h3 : t.validate_total_voters with
      | error e3 =>
        rw [h3] at hval
        cases hval
        unfold IkInfo.validate_total_voters at h3
        split at h3
        · next hlt =>
          cases h3
          exact ⟨t, self_mem_nodes t, rfl, rfl, rfl, hlt⟩
        · cases h3
      | ok u =>
        cases u
        rw [h3] at hval
        by_cases hd : depsTruthy t.dependent_iks = true
        · rw [if_pos hd] at hval
          cases hvv : validateValues (childList t) with
          | error e4 =>
            rw [hvv] at hval
            cases hval
            obtain ⟨c, hc, hce⟩ := validateValues_error hvv
            exact errWitnessed_mono e (mem_nodes_of_child hc) (ih c hc e hce)
          | ok u =>
            cases u
            rw [hvv] at hval
            obtain ⟨f, _, hne, herr⟩ := checkSums_error hval
            subst herr
            exact ⟨t, self_mem_nodes t, rfl, rfl, rfl, hne⟩
        · rw [if_neg hd] at hval
          cases hval

/-- C1: `validate()` succeeds exactly when invariants 1-3 hold at every
node and, at every node with children, each of the six counters equals
the sum of that counter over the direct children (`Valid`); any
violating tree instead produces an error, and every raised error
truthfully identifies an offending node of the tree and the conflicting
values (`errWitnessed`), so no violating tree is accepted silently. -/
theorem C1_validate_ok_iff_invariants (t : IkInfo) :
    (IkInfo.validate t = Except.ok () ↔ Valid t) ∧
    (∀ e : ValidationError,
      IkInfo.validate t = Except.error e → errWitnessed t e) := by
  exact ⟨validate_ok_iff_Valid t, validate_error_witnessed t⟩

/-- Witness for C1 at a concrete leaf violating invariant 1. -/
theorem C1_validate_ok_iff_invariants_witness :
    (IkInfo.validate (IkInfo.mk "bad" 10 5 5 0 2 2 none) = Except.ok () ↔
      Valid (IkInfo.mk "bad" 10 5 5 0 2 2 none)) ∧
    errWitnessed (IkInfo.mk "bad" 10 5 5 0 2 2 none)
      (ValidationError.foundMismatch "bad" 2 2 0 5) := by
  have h := C1_validate_ok_iff_invariants (IkInfo.mk "bad" 10 5 5 0 2 2 none)
  refine ⟨h.1, h.2 (ValidationError.foundMismatch "bad" 2 2 0 5) ?_⟩
  rw [IkInfo.validate]
  rw [show (IkInfo.mk "bad" 10 5 5 0 2 2 none).validate_found_ballots =
    Except.error (ValidationError.foundMismatch "bad" 2 2 0 5) from by
      rw [IkInfo.validate_found_ballots, if_pos (by decide)]; rfl]

theorem childList_add (t c : IkInfo) :
    childList (t.add_ik_info c) = odSet (childList t) c := by
  match t with
  | .mk n tv gb fb sb yv nv none =>
    simp [IkInfo.add_ik_info, childList, depsTruthy]
  | .mk n tv gb fb sb yv nv (some []) =>
    simp [IkInfo.add_ik_info, childList, depsTruthy]
  | .mk n tv gb fb sb yv nv (some (x :: xs)) =>
    simp [IkInfo.add_ik_info, childList, depsTruthy]

theorem getField_add (t c : IkInfo) (f : Field) :
    (t.add_ik_info c).getField f = t.getField f + c.getField f := by
  match t with
  | .mk n tv gb fb sb yv nv deps =>
    cases f <;> rfl

theorem name_add (t c : IkInfo) :
    IkInfo.name (t.add_ik_info c) = IkInfo.name t := by
  match t with
  | .mk n tv gb fb sb yv nv deps => rfl

theorem odSet_fresh {l : List IkInfo} {c : IkInfo}
    (h : ∀ x ∈ l, IkInfo.name x ≠ IkInfo.name c) : odSet l c = l ++ [c] := by
  induction l with
  | nil => rfl
  | cons x xs ih =>
    rw [odSet, if_neg (h x (List.mem_cons_self x xs))]
    rw [ih (fun y hy => h y (List.mem_cons_of_mem x hy))]
    rfl

theorem foldl_int_shift (g : IkInfo → Int) (l : List IkInfo) :
    ∀ a : Int,
      l.foldl (fun acc ik => acc + g ik) a =
        a + l.foldl (fun acc ik => acc + g ik) 0 := by
  induction l with
  | nil => intro a; simp
  | cons x xs ih =>
    intro a
    rw [List.foldl_cons, List.foldl_cons, ih (a + g x), ih (0 + g x)]
    ring

theorem sumField_cons (f : Field) (c : IkInfo) (cs : List IkInfo) :
    sumField f (c :: cs) = c.getField f + sumField f cs := by
  unfold sumField
  rw [List.foldl_cons, foldl_int_shift]
  ring

theorem foldl_add_ik_info (cs : List IkInfo) :
    ∀ p : IkInfo,
      (∀ c ∈ cs, ∀ x ∈ childList p, IkInfo.name x ≠ IkInfo.name c) →
      cs.Pairwise (fun a b => IkInfo.name a ≠ IkInfo.name b) →
      childList (cs.foldl IkInfo.add_ik_info p) = childList p ++ cs ∧
      (∀ f : Field,
        (cs.foldl IkInfo.add_ik_info p).getField f =
          p.getField f + sumField f cs) ∧
      IkInfo.name (cs.foldl IkInfo.add_ik_info p) = IkInfo.name p := by
  induction cs with
  | nil =>
    intro p _ _
    refine ⟨by simp, fun f => ?_, rfl⟩
    simp [sumField]
  | cons c cs ih =>
    intro p hfresh hdist
    rw [List.foldl_cons]
    have hstep : childList (p.add_ik_info c) = childList p ++ [c] := by
      rw [childList_add,
        odSet_fresh (fun x hx => hfresh c (List.mem_cons_self c cs) x hx)]
    have hfresh1 :
        ∀ d ∈ cs, ∀ x ∈ childList (p.add_ik_info c),
          IkInfo.name x ≠ IkInfo.name d := by
      intro d hd x hx
      rw [hstep] at hx
      rcases List.mem_append.mp hx with h | h
      · exact hfresh d (List.mem_cons_of_mem c hd) x h
      · rcases List.mem_singleton.mp h with rfl
        exact (List.pairwise_cons.mp hdist).1 d hd
    obtain ⟨h1, h2, h3⟩ :=
      ih (p.add_ik_info c) hfresh1 (List.pairwise_cons.mp hdist).2
    refine ⟨?_, fun f => ?_, ?_⟩
    · rw [h1, hstep, List.append_assoc]; rfl
    · rw [h2 f, getField_add, sumField_cons]; ring
    · rw [h3, name_add]

/-- C2: a parent created empty and then built solely by `add_ik_info`
calls with pairwise-distinct child names holds exactly the attached
children, in attachment order, and each of its six counters equals the
sum of that counter over the children.  All other operations of the
class are embedded as read-only functions (see also the `validateS`
theorem), so `add_ik_info` is the only counter-changing operation after
creation. -/
theorem C2_attach_builds_sums (name : String) (hd : Bool)
    (cs : List IkInfo)
    (hdist : cs.Pairwise (fun a b => IkInfo.name a ≠ IkInfo.name b)) :
    childList (cs.foldl IkInfo.add_ik_info (IkInfo.new name hd)) = cs ∧
    (∀ f : Field,
      (cs.foldl IkInfo.add_ik_info (IkInfo.new name hd)).getField f =
        sumField f cs) ∧
    IkInfo.name (cs.foldl IkInfo.add_ik_info (IkInfo.new name hd)) = name := by
  have hempty : childList (IkInfo.new name hd) = [] := by
    cases hd <;> rfl
  have hzero : ∀ f : Field, (IkInfo.new name hd).getField f = 0 := by
    intro f; cases hd <;> cases f <;> rfl
  obtain ⟨h1, h2, h3⟩ :=
    foldl_add_ik_info cs (IkInfo.new name hd)
      (fun c _ x hx => by rw [hempty] at hx; cases hx) hdist
  refine ⟨by rw [h1, hempty]; rfl, fun f => ?_, by rw [h3]; cases hd <;> rfl⟩
  rw [h2 f, hzero f]
  ring

/-- Witness for C2 at a concrete parent with three distinct children. -/
theorem C2_attach_builds_sums_witness :
    ([IkInfo.mk "u1" 10 6 6 1 3 2 none, IkInfo.mk "u2" 20 9 8 2 4 2 none,
        IkInfo.mk "u3" 5 5 5 0 5 0 none].Pairwise
      (fun a b => IkInfo.name a ≠ IkInfo.name b)) ∧
    childList ([IkInfo.mk "u1" 10 6 6 1 3 2 none,
        IkInfo.mk "u2" 20 9 8 2 4 2 none,
        IkInfo.mk "u3" 5 5 5 0 5 0 none].foldl IkInfo.add_ik_info
        (IkInfo.new "tik" true)) =
      [IkInfo.mk "u1" 10 6 6 1 3 2 none, IkInfo.mk "u2" 20 9 8 2 4 2 none,
        IkInfo.mk "u3" 5 5 5 0 5 0 none] ∧
    ([IkInfo.mk "u1" 10 6 6 1 3 2 none, IkInfo.mk "u2" 20 9 8 2 4 2 none,
        IkInfo.mk "u3" 5 5 5 0 5 0 none].foldl IkInfo.add_ik_info
        (IkInfo.new "tik" true)).getField Field.total_voters =
      sumField Field.total_voters
        [IkInfo.mk "u1" 10 6 6 1 3 2 none, IkInfo.mk "u2" 20 9 8 2 4 2 none,
          IkInfo.mk "u3" 5 5 5 0 5 0 none] := by
  have hdist :
      ([IkInfo.mk "u1" 10 6 6 1 3 2 none, IkInfo.mk "u2" 20 9 8 2 4 2 none,
          IkInfo.mk "u3" 5 5 5 0 5 0 none].Pairwise
        (fun a b => IkInfo.name a ≠ IkInfo.name b)) := by
    simp [List.pairwise_cons, IkInfo.name]
  obtain ⟨h1, h2, _⟩ := C2_attach_builds_sums "tik" true _ hdist
  exact ⟨hdist, h1, h2 Field.total_voters⟩

/-- C3 counterexample: attaching a second child carrying an
already-present name does not fail — `add_ik_info` is total — and it
both replaces the stored child and adds the duplicate's counters onto
the parent again, leaving the parent's counter (30) different from the
sum over its children (20). -/
theorem C3_counterexample :
    ((IkInfo.new "p" true).add_ik_info
        (IkInfo.mk "a" 10 5 5 1 2 2 none)).add_ik_info
        (IkInfo.mk "a" 20 6 6 1 3 2 none) =
      IkInfo.mk "p" 30 11 11 2 5 4
        (some [IkInfo.mk "a" 20 6 6 1 3 2 none]) ∧
    (30 : Int) ≠ sumField Field.total_voters
      [IkInfo.mk "a" 20 6 6 1 3 2 none] := by
  constructor
  · rfl
  · decide

/-- C3 as amended: attaching a child whose name is already present in
the child mapping raises nothing; it replaces the existing entry in
place (the list of child names and its length are unchanged) while still
adding all six of the child's counters onto the parent's counters. -/
theorem odSet_names {c : IkInfo} :
    ∀ l : List IkInfo, (∃ x ∈ l, IkInfo.name x = IkInfo.name c) →
      (odSet l c).map IkInfo.name = l.map IkInfo.name := by
  intro l
  induction l with
  | nil => intro hex; obtain ⟨x, hx, _⟩ := hex; cases hx
  | cons y ys ih =>
    intro hex
    by_cases hy : IkInfo.name y = IkInfo.name c
    · rw [odSet, if_pos hy]
      simp [hy]
    · rw [odSet, if_neg hy]
      obtain ⟨x, hx, hname⟩ := hex
      rcases List.mem_cons.mp hx with rfl | hx2
      · exact absurd hname hy
      · simp [ih ⟨x, hx2, hname⟩]

theorem C3_duplicate_attach_overwrites (p c : IkInfo)
    (h : ∃ x ∈ childList p, IkInfo.name x = IkInfo.name c) :
    (childList (p.add_ik_info c)).map IkInfo.name =
      (childList p).map IkInfo.name ∧
    (∀ f : Field,
      (p.add_ik_info c).getField f = p.getField f + c.getField f) := by
  constructor
  · rw [childList_add]
    exact odSet_names (childList p) h
  · intro f; exact getField_add p c f

/-- Witness for the amended C3 at a concrete duplicate attach. -/
theorem C3_duplicate_attach_overwrites_witness :
    (∃ x ∈ childList ((IkInfo.new "p" true).add_ik_info
        (IkInfo.mk "a" 10 5 5 1 2 2 none)),
      IkInfo.name x = IkInfo.name (IkInfo.mk "a" 20 6 6 1 3 2 none)) ∧
    (childList (((IkInfo.new "p" true).add_ik_info
          (IkInfo.mk "a" 10 5 5 1 2 2 none)).add_ik_info
          (IkInfo.mk "a" 20 6 6 1 3 2 none))).map IkInfo.name =
      (childList ((IkInfo.new "p" true).add_ik_info
          (IkInfo.mk "a" 10 5 5 1 2 2 none))).map IkInfo.name ∧
    (((IkInfo.new "p" true).add_ik_info
        (IkInfo.mk "a" 10 5 5 1 2 2 none)).add_ik_info
        (IkInfo.mk "a" 20 6 6 1 3 2 none)).getField Field.total_voters =
      ((IkInfo.new "p" true).add_ik_info
          (IkInfo.mk "a" 10 5 5 1 2 2 none)).getField Field.total_voters +
        (IkInfo.mk "a" 20 6 6 1 3 2 none).getField Field.total_voters := by
  have hex :
      (∃ x ∈ childList ((IkInfo.new "p" true).add_ik_info
          (IkInfo.mk "a" 10 5 5 1 2 2 none)),
        IkInfo.name x = IkInfo.name (IkInfo.mk "a" 20 6 6 1 3 2 none)) :=
    ⟨IkInfo.mk "a" 10 5 5 1 2 2 none, by simp [IkInfo.new, IkInfo.add_ik_info,
      childList, depsTruthy, odSet], rfl⟩
  obtain ⟨h1, h2⟩ := C3_duplicate_attach_overwrites _ _ hex
  exact ⟨hex, h1, h2 Field.total_voters⟩

/-- C4: each percentage getter raises the division-by-zero error exactly
when its denominator counter is zero (`total_voters` for the turnout,
`found_ballots` for the three vote shares); a non-zero denominator never
raises.  Python raises `ZeroDivisionError` here, the runtime's clearly
named division error, rather than returning NaN or infinity. -/
theorem C4_zero_denominator_errors (t : IkInfo) :
    (t.get_turnout_percent = Except.error PyError.zeroDivision ↔
      t.total_voters = 0) ∧
    (t.get_yes_percent = Except.error PyError.zeroDivision ↔
      t.found_ballots = 0) ∧
    (t.get_no_percent = Except.error PyError.zeroDivision ↔
      t.found_ballots = 0) ∧
    (t.get_spoiled_percent = Except.error PyError.zeroDivision ↔
      t.found_ballots = 0) := by
  unfold IkInfo.get_turnout_percent IkInfo.get_yes_percent
    IkInfo.get_no_percent IkInfo.get_spoiled_percent
  refine ⟨?_, ?_, ?_, ?_⟩ <;> (split <;> simp_all)

/-- The leaf-percentage example node of the specification:
total_voters=100, given_ballots=60, found_ballots=60, spoiled_ballots=5,
yes_votes=40, no_votes=15. -/
def specNode : IkInfo := IkInfo.mk "unit" 100 60 60 5 40 15 none

/-- C8: on any node with non-zero denominators the four getters return
`100 * given_ballots / total_voters`, `100 * yes_votes / found_ballots`,
`100 * no_votes / found_ballots` and
`100 * spoiled_ballots / found_ballots` (float arithmetic modelled as
exact rationals); at the specification's example node the values are 60,
200/3 (about 66.67), 25, and 25/3 (about 8.33). -/
theorem C8_percent_formulas (t : IkInfo) :
    (t.total_voters ≠ 0 → t.get_turnout_percent =
      Except.ok (100 * (t.given_ballots : Rat) / (t.total_voters : Rat))) ∧
    (t.found_ballots ≠ 0 →
      t.get_yes_percent =
        Except.ok (100 * (t.yes_votes : Rat) / (t.found_ballots : Rat)) ∧
      t.get_no_percent =
        Except.ok (100 * (t.no_votes : Rat) / (t.found_ballots : Rat)) ∧
      t.get_spoiled_percent =
        Except.ok (100 * (t.spoiled_ballots : Rat) / (t.found_ballots : Rat))) ∧
    (specNode.get_turnout_percent = Except.ok 60 ∧
      specNode.get_yes_percent = Except.ok (200 / 3) ∧
      specNode.get_no_percent = Except.ok 25 ∧
      specNode.get_spoiled_percent = Except.ok (25 / 3)) := by
  refine ⟨fun h => ?_, fun h => ⟨?_, ?_, ?_⟩, ?_, ?_, ?_, ?_⟩
  · rw [IkInfo.get_turnout_percent, if_neg h]
  · rw [IkInfo.get_yes_percent, if_neg h]
  · rw [IkInfo.get_no_percent, if_neg h]
  · rw [IkInfo.get_spoiled_percent, if_neg h]
  · rw [IkInfo.get_turnout_percent, if_neg (by decide)]
    norm_num [specNode, IkInfo.given_ballots, IkInfo.total_voters]
  · rw [IkInfo.get_yes_percent, if_neg (by decide)]
    norm_num [specNode, IkInfo.yes_votes, IkInfo.found_ballots]
  · rw [IkInfo.get_no_percent, if_neg (by decide)]
    norm_num [specNode, IkInfo.no_votes, IkInfo.found_ballots]
  · rw [IkInfo.get_spoiled_percent, if_neg (by decide)]
    norm_num [specNode, IkInfo.spoiled_ballots, IkInfo.found_ballots]

/-- Witness for C8 at the specification's example node. -/
theorem C8_percent_formulas_witness :
    specNode.total_voters ≠ 0 ∧ specNode.found_ballots ≠ 0 ∧
    specNode.get_turnout_percent =
      Except.ok (100 * (specNode.given_ballots : Rat) /
        (specNode.total_voters : Rat)) ∧
    specNode.get_yes_percent =
      Except.ok (100 * (specNode.yes_votes : Rat) /
        (specNode.found_ballots : Rat)) := by
  refine ⟨by decide, by decide, ?_, ?_⟩
  · exact (C8_percent_formulas specNode).1 (by decide)
  · exact ((C8_percent_formulas specNode).2.1 (by decide)).1

/-- Leaf nodes of a tree in depth-first, child-insertion order: the
nodes whose `dependent_iks` is absent or empty, in the order `nodes`
lists them. -/
def leavesOf (t : IkInfo) : List IkInfo :=
  (nodes t).filter (fun u => !depsTruthy u.dependent_iks)

theorem childList_eq_nil_of_falsy {t : IkInfo}
    (h : depsTruthy t.dependent_iks = false) : childList t = [] := by
  match t with
  | .mk n tv gb fb sb yv nv none => rfl
  | .mk n tv gb fb sb yv nv (some []) => rfl
  | .mk n tv gb fb sb yv nv (some (x :: xs)) =>
    rw [IkInfo.dependent_iks, depsTruthy] at h
    cases h

theorem get_iks_true_eq_leaves :
    ∀ t : IkInfo, IkInfo.get_iks t true = leavesOf t := by
  apply IkInfo.inductChildren
  intro t ih
  rw [IkInfo.get_iks, leavesOf, nodes]
  by_cases hd : depsTruthy t.dependent_iks = true
  · rw [if_pos hd, if_pos rfl, List.filter_cons_of_neg (by simp [hd])]
    have : ∀ l : List IkInfo,
        (∀ c ∈ l, IkInfo.get_iks c true = leavesOf c) →
        iksOfValues l =
          (nodesList l).filter (fun u => !depsTruthy u.dependent_iks) := by
      intro l
      induction l with
      | nil => intro _; rw [iksOfValues, nodesList]; rfl
      | cons c cs ihl =>
        intro hmem
        rw [iksOfValues, nodesList, List.filter_append]
        rw [hmem c (List.mem_cons_self c cs), leavesOf]
        rw [ihl (fun x hx => hmem x (List.mem_cons_of_mem c hx))]
    exact this (childList t) ih
  · have hd2 : depsTruthy t.dependent_iks = false := by
      cases hdt : depsTruthy t.dependent_iks
      · rfl
      · exact absurd hdt hd
    rw [if_neg hd, childList_eq_nil_of_falsy hd2]
    rw [nodesList, List.filter_cons_of_pos (by simp [hd2])]
    rfl

/-- C5: `get_iks(True)` yields exactly the leaf nodes of the tree in
depth-first, child-insertion order; on a node with children
`get_iks(False)` yields exactly the direct children in insertion order;
and on a node without children the result is the one-element sequence
holding the node itself, whatever the flag. -/
theorem C5_get_iks_leaves_and_children (t : IkInfo) :
    (IkInfo.get_iks t true = leavesOf t) ∧
    (depsTruthy t.dependent_iks = true →
      IkInfo.get_iks t false = childList t) ∧
    (depsTruthy t.dependent_iks = false →
      ∀ r : Bool, IkInfo.get_iks t r = [t]) := by
  refine ⟨get_iks_true_eq_leaves t, fun hd => ?_, fun hd r => ?_⟩
  · rw [IkInfo.get_iks, if_pos hd, if_neg (by simp)]
  · rw [IkInfo.get_iks, if_neg (by simp [hd])]

/-- Witness for C5 at a concrete two-level tree. -/
theorem C5_get_iks_leaves_and_children_witness :
    depsTruthy (IkInfo.dependent_iks (IkInfo.mk "p" 30 14 14 3 7 4
      (some [IkInfo.mk "u1" 10 6 6 1 3 2 none,
        IkInfo.mk "u2" 20 8 8 2 4 2 none]))) = true ∧
    IkInfo.get_iks (IkInfo.mk "p" 30 14 14 3 7 4
      (some [IkInfo.mk "u1" 10 6 6 1 3 2 none,
        IkInfo.mk "u2" 20 8 8 2 4 2 none])) false =
      [IkInfo.mk "u1" 10 6 6 1 3 2 none,
        IkInfo.mk "u2" 20 8 8 2 4 2 none] ∧
    depsTruthy (IkInfo.dependent_iks (IkInfo.mk "u1" 10 6 6 1 3 2 none)) =
      false ∧
    IkInfo.get_iks (IkInfo.mk "u1" 10 6 6 1 3 2 none) true =
      [IkInfo.mk "u1" 10 6 6 1 3 2 none] := by
  refine ⟨rfl, ?_, rfl, ?_⟩
  · exact (C5_get_iks_leaves_and_children (IkInfo.mk "p" 30 14 14 3 7 4
      (some [IkInfo.mk "u1" 10 6 6 1 3 2 none,
        IkInfo.mk "u2" 20 8 8 2 4 2 none]))).2.1 rfl
  · exact (C5_get_iks_leaves_and_children
      (IkInfo.mk "u1" 10 6 6 1 3 2 none)).2.2 rfl true

/-- C6: evaluation of `get_ik_by_name` as written in the source.  On a
two-level tree a search for a grandchild reaches the final loop, which
iterates over the dict's string keys and calls a node method on a `str`,
raising `AttributeError` instead of descending; on a leaf node a missed
search performs `ik_name in None` and raises `TypeError` instead of
returning the not-found result.  A search hitting the node itself or a
direct child still succeeds. -/
theorem C6_lookup_crashes_on_descend :
    IkInfo.get_ik_by_name
      (IkInfo.mk "r" 5 4 4 1 2 1
        (some [IkInfo.mk "c" 5 4 4 1 2 1
          (some [IkInfo.mk "g" 5 4 4 1 2 1 none])])) "g" =
      Except.error PyError.attributeErrorOnStr ∧
    IkInfo.get_ik_by_name (IkInfo.mk "g" 5 4 4 1 2 1 none) "x" =
      Except.error PyError.typeErrorNoneNotIterable ∧
    IkInfo.get_ik_by_name
      (IkInfo.mk "r" 5 4 4 1 2 1
        (some [IkInfo.mk "c" 5 4 4 1 2 1
          (some [IkInfo.mk "g" 5 4 4 1 2 1 none])])) "c" =
      Except.ok (some (IkInfo.mk "c" 5 4 4 1 2 1
        (some [IkInfo.mk "g" 5 4 4 1 2 1 none]))) := by
  refine ⟨?_, ?_, ?_⟩ <;> rfl

theorem validate_error_of_found (t : IkInfo)
    (h : t.found_ballots ≠ t.yes_votes + t.no_votes + t.spoiled_ballots) :
    IkInfo.validate t = Except.error (ValidationError.foundMismatch
      t.name t.yes_votes t.no_votes t.spoiled_ballots t.found_ballots) := by
  rw [IkInfo.validate]
  have hfb : t.validate_found_ballots = Except.error
      (ValidationError.foundMismatch t.name t.yes_votes t.no_votes
        t.spoiled_ballots t.found_ballots) := by
    rw [IkInfo.validate_found_ballots, if_pos h]
  rw [hfb]

/-- C7 counterexample: in a tree whose parent and child both violate
invariant 1, `validate()` on the parent reports the parent, because the
source checks the node's own three invariants before ever recursing into
the children; the claim says the child would be named. -/
theorem C7_counterexample :
    IkInfo.validate (IkInfo.mk "parent" 10 5 5 0 2 2
        (some [IkInfo.mk "child" 10 5 5 0 2 2 none])) =
      Except.error (ValidationError.foundMismatch "parent" 2 2 0 5) ∧
    IkInfo.validate (IkInfo.mk "child" 10 5 5 0 2 2 none) =
      Except.error (ValidationError.foundMismatch "child" 2 2 0 5) := by
  constructor
  · exact validate_error_of_found _ (by decide)
  · exact validate_error_of_found _ (by decide)

theorem validate_error_of_given (t : IkInfo)
    (hfound : t.found_ballots = t.yes_votes + t.no_votes + t.spoiled_ballots)
    (hlt : t.given_ballots < t.found_ballots) :
    IkInfo.validate t = Except.error (ValidationError.givenLtFound
      t.name t.given_ballots t.found_ballots) := by
  rw [IkInfo.validate]
  rw [show t.validate_found_ballots = Except.ok () from by
    rw [IkInfo.validate_found_ballots, if_neg (by omega)]]
  rw [show t.validate_given_ballots = Except.error
      (ValidationError.givenLtFound t.name t.given_ballots
        t.found_ballots) from by
    rw [IkInfo.validate_given_ballots, if_pos hlt]]

theorem validate_error_of_total (t : IkInfo)
    (hfound : t.found_ballots = t.yes_votes + t.no_votes + t.spoiled_ballots)
    (hgiven : ¬ t.given_ballots < t.found_ballots)
    (hlt : t.total_voters < t.given_ballots) :
    IkInfo.validate t = Except.error (ValidationError.totalLtGiven
      t.name t.total_voters t.given_ballots) := by
  rw [IkInfo.validate]
  rw [show t.validate_found_ballots = Except.ok () from by
    rw [IkInfo.validate_found_ballots, if_neg (by omega)]]
  rw [show t.validate_given_ballots = Except.ok () from by
    rw [IkInfo.validate_given_ballots, if_neg hgiven]]
  rw [show t.validate_total_voters = Except.error
      (ValidationError.totalLtGiven t.name t.total_voters
        t.given_ballots) from by
    rw [IkInfo.validate_total_voters, if_pos hlt]]

/-- The node name carried by a validation error. -/
def errIkName : ValidationError → String
  | .foundMismatch nm _ _ _ _ => nm
  | .givenLtFound nm _ _ => nm
  | .totalLtGiven nm _ _ => nm
  | .sumMismatch nm _ _ _ => nm

/-- C7 as amended: `validate()` runs the node's own invariant 1-3 checks
first, before ever recursing into the children, so whenever the node
itself violates any of invariants 1-3 the reported error names this
node (with the error of the first failing own check, in source order)
even when a child also violates an invariant; the children are
validated afterwards inside the dependent-counters step, and there a
child's error is raised before the parent's child-sum comparison. -/
theorem C7_own_checks_before_children (t : IkInfo) :
    (t.found_ballots ≠ t.yes_votes + t.no_votes + t.spoiled_ballots →
      IkInfo.validate t = Except.error (ValidationError.foundMismatch
        t.name t.yes_votes t.no_votes t.spoiled_ballots t.found_ballots)) ∧
    (t.found_ballots = t.yes_votes + t.no_votes + t.spoiled_ballots →
      t.given_ballots < t.found_ballots →
      IkInfo.validate t = Except.error (ValidationError.givenLtFound
        t.name t.given_ballots t.found_ballots)) ∧
    (t.found_ballots = t.yes_votes + t.no_votes + t.spoiled_ballots →
      ¬ t.given_ballots < t.found_ballots →
      t.total_voters < t.given_ballots →
      IkInfo.validate t = Except.error (ValidationError.totalLtGiven
        t.name t.total_voters t.given_ballots)) ∧
    (¬ (inv1 t ∧ inv2 t ∧ inv3 t) →
      ∃ e : ValidationError,
        IkInfo.validate t = Except.error e ∧ errIkName e = t.name) ∧
    (∀ e : ValidationError,
      t.validate_found_ballots = Except.ok () →
      t.validate_given_ballots = Except.ok () →
      t.validate_total_voters = Except.ok () →
      validateValues (childList t) = Except.error e →
      IkInfo.validate t = Except.error e) := by
  refine ⟨validate_error_of_found t, validate_error_of_given t,
    validate_error_of_total t, fun hviol => ?_, fun e h1 h2 h3 hvv => ?_⟩
  · by_cases hf : t.found_ballots = t.yes_votes + t.no_votes +
        t.spoiled_ballots
    · by_cases hg : t.given_ballots < t.found_ballots
      · exact ⟨ValidationError.givenLtFound t.name t.given_ballots
          t.found_ballots, validate_error_of_given t hf hg, rfl⟩
      · have ht : t.total_voters < t.given_ballots := by
          unfold inv1 inv2 inv3 at hviol
          omega
        exact ⟨ValidationError.totalLtGiven t.name t.total_voters
          t.given_ballots, validate_error_of_total t hf hg ht, rfl⟩
    · exact ⟨ValidationError.foundMismatch t.name t.yes_votes t.no_votes
        t.spoiled_ballots t.found_ballots, validate_error_of_found t hf, rfl⟩
  · rw [IkInfo.validate, h1, h2, h3]
    by_cases hd : depsTruthy t.dependent_iks = true
    · rw [if_pos hd, hvv]
    · have hd2 : depsTruthy t.dependent_iks = false := by
        cases hdt : depsTruthy t.dependent_iks
        · rfl
        · exact absurd hdt hd
      rw [childList_eq_nil_of_falsy hd2, validateValues] at hvv
      cases hvv

/-- Witness for the amended C7: parents violating invariant 1, only
invariant 2, or only invariant 3 (each over a child violating invariant
1) are reported by their own name, while a parent with clean own
counters propagates its child's error. -/
theorem C7_own_checks_before_children_witness :
    IkInfo.validate (IkInfo.mk "parent" 10 5 5 0 2 2
        (some [IkInfo.mk "child" 10 5 5 0 2 2 none])) =
      Except.error (ValidationError.foundMismatch "parent" 2 2 0 5) ∧
    IkInfo.validate (IkInfo.mk "p2" 10 4 5 1 2 2
        (some [IkInfo.mk "child" 10 5 5 0 2 2 none])) =
      Except.error (ValidationError.givenLtFound "p2" 4 5) ∧
    IkInfo.validate (IkInfo.mk "p3" 4 5 5 1 2 2
        (some [IkInfo.mk "child" 10 5 5 0 2 2 none])) =
      Except.error (ValidationError.totalLtGiven "p3" 4 5) ∧
    IkInfo.validate (IkInfo.mk "clean" 10 5 5 0 2 3
        (some [IkInfo.mk "child" 10 5 5 0 2 2 none])) =
      Except.error (ValidationError.foundMismatch "child" 2 2 0 5) := by
  refine ⟨?_, ?_, ?_, ?_⟩
  · exact (C7_own_checks_before_children _).1 (by decide)
  · exact (C7_own_checks_before_children
      (IkInfo.mk "p2" 10 4 5 1 2 2
        (some [IkInfo.mk "child" 10 5 5 0 2 2 none]))).2.1
      (by decide) (by decide)
  · exact (C7_own_checks_before_children
      (IkInfo.mk "p3" 4 5 5 1 2 2
        (some [IkInfo.mk "child" 10 5 5 0 2 2 none]))).2.2.1
      (by decide) (by decide) (by decide)
  · have hchild : IkInfo.validate (IkInfo.mk "child" 10 5 5 0 2 2 none) =
        Except.error (ValidationError.foundMismatch "child" 2 2 0 5) :=
      validate_error_of_found _ (by decide)
    have hvv : validateValues
        (childList (IkInfo.mk "clean" 10 5 5 0 2 3
          (some [IkInfo.mk "child" 10 5 5 0 2 2 none]))) =
        Except.error (ValidationError.foundMismatch "child" 2 2 0 5) := by
      show validateValues [IkInfo.mk "child" 10 5 5 0 2 2 none] = _
      simp only [validateValues, hchild]
    exact (C7_own_checks_before_children _).2.2.2.2 _
      (by rw [IkInfo.validate_found_ballots, if_neg (by decide)])
      (by rw [IkInfo.validate_given_ballots, if_neg (by decide)])
      (by rw [IkInfo.validate_total_voters, if_neg (by decide)])
      hvv

theorem withChildren_self {t : IkInfo}
    (hd : depsTruthy t.dependent_iks = true) :
    t.withChildren (childList t) = t := by
  match t with
  | .mk n tv gb fb sb yv nv none =>
    exact absurd hd (by simp [IkInfo.dependent_iks, depsTruthy])
  | .mk n tv gb fb sb yv nv (some l) => rfl

theorem validateValuesS_eq (l : List IkInfo)
    (ih : ∀ c ∈ l, IkInfo.validateS c = (IkInfo.validate c, c)) :
    validateValuesS l = (validateValues l, l) := by
  induction l with
  | nil => rw [validateValuesS, validateValues]
  | cons c cs ihl =>
    rw [validateValuesS, validateValues, ih c (List.mem_cons_self c cs)]
    cases hval : IkInfo.validate c with
    | error e => rfl
    | ok u =>
      cases u
      simp only
      rw [ihl (fun x hx => ih x (List.mem_cons_of_mem c hx))]

theorem validateS_eq :
    ∀ t : IkInfo, IkInfo.validateS t = (IkInfo.validate t, t) := by
  apply IkInfo.inductChildren
  intro t ih
  rw [IkInfo.validateS, IkInfo.validate]
  cases h1 : t.validate_found_ballots with
  | error e => rfl
  | ok u =>
    cases u
    cases h2 : t.validate_given_ballots with
    | error e => rfl
    | ok u =>
      cases u
      cases h3 : t.validate_total_voters with
      | error e => rfl
      | ok u =>
        cases u
        by_cases hd : depsTruthy t.dependent_iks = true
        · rw [if_pos hd, if_pos hd, validateValuesS_eq (childList t) ih]
          cases hvv : validateValues (childList t) with
          | error e => simp only; rw [withChildren_self hd]
          | ok u => cases u; simp only; rw [withChildren_self hd]
        · rw [if_neg hd, if_neg hd]

/-- C9: the state-passing embedding of `validate()` returns the receiver
tree unchanged (no node's name, counters or child structure is mutated),
its raised-or-not status agrees with the pure `validate`, and on an
already-valid tree a second `validate()` call succeeds as well. -/
theorem C9_validate_no_mutation_idempotent (t : IkInfo) :
    (IkInfo.validateS t).2 = t ∧
    (IkInfo.validateS t).1 = IkInfo.validate t ∧
    ((IkInfo.validateS t).1 = Except.ok () →
      (IkInfo.validateS ((IkInfo.validateS t).2)).1 = Except.ok ()) := by
  have h := validateS_eq t
  refine ⟨by rw [h], by rw [h], fun hok => ?_⟩
  rw [h] at hok ⊢
  simp only at hok ⊢
  rw [validateS_eq t]
  exact hok

/-- Witness for C9 at a concrete valid leaf node. -/
theorem C9_validate_no_mutation_idempotent_witness :
    (IkInfo.validateS (IkInfo.mk "u" 10 5 5 1 2 2 none)).2 =
      IkInfo.mk "u" 10 5 5 1 2 2 none ∧
    (IkInfo.validateS
      ((IkInfo.validateS (IkInfo.mk "u" 10 5 5 1 2 2 none)).2)).1 =
      Except.ok () := by
  have hok : IkInfo.validate (IkInfo.mk "u" 10 5 5 1 2 2 none) =
      Except.ok () := by
    rw [IkInfo.validate]
    rw [show (IkInfo.mk "u" 10 5 5 1 2 2 none).validate_found_ballots =
      Except.ok () from by rw [IkInfo.validate_found_ballots,
        if_neg (by decide)]]
    rw [show (IkInfo.mk "u" 10 5 5 1 2 2 none).validate_given_ballots =
      Except.ok () from by rw [IkInfo.validate_given_ballots,
        if_neg (by decide)]]
    rw [show (IkInfo.mk "u" 10 5 5 1 2 2 none).validate_total_voters =
      Except.ok () from by rw [IkInfo.validate_total_voters,
        if_neg (by decide)]]
    rw [if_neg (by decide)]
  have h := C9_validate_no_mutation_idempotent
    (IkInfo.mk "u" 10 5 5 1 2 2 none)
  refine ⟨h.1, h.2.2 ?_⟩
  rw [h.2.1, hok]

theorem fieldOrders_eq : tikFieldOrder = ikFieldOrder := by rfl

theorem tik_get_iks_eq :
    ∀ t : IkInfo, ∀ r : Bool, Tik.get_iks t r = IkInfo.get_iks t r := by
  apply IkInfo.inductChildren
    (fun t => ∀ r : Bool, Tik.get_iks t r = IkInfo.get_iks t r)
  intro t ih r
  rw [Tik.get_iks, IkInfo.get_iks]
  by_cases hd : depsTruthy t.dependent_iks = true
  · rw [if_pos hd, if_pos hd]
    cases r
    · rfl
    · simp only [if_pos rfl]
      have key : ∀ l : List IkInfo,
          (∀ c ∈ l, ∀ r : Bool, Tik.get_iks c r = IkInfo.get_iks c r) →
          Tik.iksOfValuesT l = iksOfValues l := by
        intro l
        induction l with
        | nil => intro _; rw [Tik.iksOfValuesT, iksOfValues]
        | cons c cs ihl =>
          intro hm
          rw [Tik.iksOfValuesT, iksOfValues,
            hm c (List.mem_cons_self c cs) true,
            ihl (fun x hx => hm x (List.mem_cons_of_mem c hx))]
      exact key (childList t) ih
  · rw [if_neg hd, if_neg hd]

theorem tik_validate_eq :
    ∀ t : IkInfo, ∀ df : Option String,
      Tik.validate t df = IkInfo.validate t := by
  apply IkInfo.inductChildren
    (fun t => ∀ df : Option String, Tik.validate t df = IkInfo.validate t)
  intro t ih df
  rw [Tik.validate, IkInfo.validate]
  cases h1 : t.validate_found_ballots with
  | error e => rfl
  | ok u =>
    cases u
    cases h2 : t.validate_given_ballots with
    | error e => rfl
    | ok u =>
      cases u
      cases h3 : t.validate_total_voters with
      | error e => rfl
      | ok u =>
        cases u
        by_cases hd : depsTruthy t.dependent_iks = true
        · rw [if_pos hd, if_pos hd]
          have key : ∀ l : List IkInfo,
              (∀ c ∈ l, ∀ df : Option String,
                Tik.validate c df = IkInfo.validate c) →
              Tik.validateValuesT l = validateValues l := by
            intro l
            induction l with
            | nil => intro _; rw [Tik.validateValuesT, validateValues]
            | cons c cs ihl =>
              intro hm
              rw [Tik.validateValuesT, validateValues,
                hm c (List.mem_cons_self c cs) none,
                ihl (fun x hx => hm x (List.mem_cons_of_mem c hx))]
          rw [key (childList t) ih, fieldOrders_eq]
        · rw [if_neg hd, if_neg hd]

/-- C10: the `IkInfo` class copied into `src/process_tik.py` is
behaviorally equivalent to the one of `src/ik_info.py` on all shared
operations over the same node state: the constructor (with
`has_dependent=False`), the four percentage getters, `get_number_of_iks`,
`get_iks`, `add_ik_info` (same resulting state), and `validate` (same
success or error, for any ignored `data_file` argument; its child-sum
loop iterates `line_as_ui_info_field.values()`, which lists the same six
fields in the same order as `field_description.keys()`). -/
theorem C10_tik_copy_equivalent (s : String) (t c : IkInfo) (r : Bool)
    (df : Option String) :
    Tik.new s = IkInfo.new s false ∧
    Tik.get_turnout_percent t = t.get_turnout_percent ∧
    Tik.get_yes_percent t = t.get_yes_percent ∧
    Tik.get_no_percent t = t.get_no_percent ∧
    Tik.get_spoiled_percent t = t.get_spoiled_percent ∧
    Tik.get_number_of_iks t = t.get_number_of_iks ∧
    Tik.get_iks t r = IkInfo.get_iks t r ∧
    Tik.add_ik_info t c = t.add_ik_info c ∧
    Tik.validate t df = IkInfo.validate t := by
  refine ⟨rfl, rfl, rfl, rfl, rfl, rfl, ?_, rfl, ?_⟩
  · exact tik_get_iks_eq t r
  · exact tik_validate_eq t df

end ElectionAnalysis
